import Mathlib

/-!
Verification of `shell_agent.py` (shellgpt): a shallow embedding of the
string-processing, detection, confirmation and table-manipulating logic of
the agent, together with theorems settling the specification claims.

Python `str` values are modelled as `List Char`; machine I/O (file
descriptors, child processes, the terminal) is modelled by explicit
parameters and result logs.
-/

namespace ShellAgent

/-- Python strings are modelled as lists of characters. -/
abbrev PyStr := List Char

/-- The single-quote character (code 39), written numerically. -/
def squote : Char := Char.ofNat 39

/-- The double-quote character (code 34), written numerically. -/
def dquote : Char := Char.ofNat 34

/-- The backslash character (code 92), written numerically. -/
def bslash : Char := Char.ofNat 92

/-- Whitespace for Python `str.split()` / `str.strip()` (ASCII range). -/
def pySpace (c : Char) : Bool :=
  c = ' ' || c = '\t' || c = '\n' || c = '\r' || c = Char.ofNat 11 || c = Char.ofNat 12

/-- Python `str.strip()`: drop leading and trailing whitespace. -/
def pyStrip (s : PyStr) : PyStr :=
  ((s.dropWhile pySpace).reverse.dropWhile pySpace).reverse

/-- Accumulator-based worker for Python `str.split()` with no arguments:
the accumulator holds the characters of the current word, reversed. -/
def pySplitAux : PyStr → PyStr → List PyStr
  | [], acc => if acc = [] then [] else [acc.reverse]
  | c :: t, acc =>
    if pySpace c then
      if acc = [] then pySplitAux t [] else acc.reverse :: pySplitAux t []
    else pySplitAux t (c :: acc)

/-- Python `str.split()` with no arguments: split on runs of whitespace,
producing no empty words. -/
def pySplit (s : PyStr) : List PyStr := pySplitAux s []

/-- Python `" ".join(parts)`. -/
def joinSpace : List PyStr → PyStr
  | [] => []
  | [p] => p
  | p :: q :: ps => p ++ ' ' :: joinSpace (q :: ps)

/-- Python `sub in s` (substring containment). -/
def pyContains : PyStr → PyStr → Bool
  | [], sub => sub.isPrefixOf []
  | c :: t, sub => sub.isPrefixOf (c :: t) || pyContains t sub

/-- Python `s.startswith(p)`. -/
def pyStartsWith (s p : PyStr) : Bool := p.isPrefixOf s

/-- Python `str.lower()`, adequate for the ASCII answers compared by the
agent (`Char.toLower` lowercases exactly the ASCII uppercase letters). -/
def pyLower (s : PyStr) : PyStr := s.map Char.toLower

/-- If `pat` is a prefix of `s`, return the remainder of `s` after it. -/
def stripPre : PyStr → PyStr → Option PyStr
  | [], s => some s
  | _ :: _, [] => none
  | p :: ps, c :: cs => if p = c then stripPre ps cs else none

/-- Fuel-indexed worker for Python `str.replace(pat, repl)`: replace
non-overlapping occurrences of `pat` left to right.  Each step consumes at
least one input character when `pat` is non-empty, so fuel equal to the
length of the input makes the worker total while computing exactly the
Python result. -/
def pyReplaceAux (pat repl : PyStr) : Nat → PyStr → PyStr
  | 0, l => l
  | _ + 1, [] => []
  | fuel + 1, c :: t =>
    match pat, stripPre pat (c :: t) with
    | _ :: _, some rest => repl ++ pyReplaceAux pat repl fuel rest
    | _, _ => c :: pyReplaceAux pat repl fuel t

/-- Python `s.replace(pat, repl)` (callers in the source use a non-empty
`pat`, for which the fuel bound is sufficient). -/
def pyReplace (s pat repl : PyStr) : PyStr := pyReplaceAux pat repl s.length s

/-- Python `"".join(parts)`. -/
def pyJoin (parts : List PyStr) : PyStr := parts.foldr (· ++ ·) []

/-! ## shlex.split

`is_interactive` tokenizes with `shlex.split(cmd)`, i.e. posix mode with
`whitespace_split=True`, `comments=False`, whitespace `" \t\r\n"`, quotes
`squote`/`dquote`, escape character backslash, and `escapedquotes`
containing only the double quote.  The CPython `read_token` state machine
is reproduced below; on malformed input it raises `ValueError`, modelled
as `Except.error` with the exact CPython message. -/

/-- Whitespace recognised by `shlex` (note: narrower than `pySpace`). -/
def shWs (c : Char) : Bool := c = ' ' || c = '\t' || c = '\r' || c = '\n'

/-- States of the `shlex` tokenizer: between tokens, inside a word, inside
single or double quotes, or just after an escape character (remembering
whether the escape occurred in a word or inside double quotes). -/
inductive ShState where
  | space
  | word
  | inSquote
  | inDquote
  | escWord
  | escDquote
  deriving DecidableEq

/-- The `shlex` state machine.  `cur` is the current token reversed,
`quoted` records whether the current token saw a quote (so that an empty
quoted token is still emitted), `acc` is the reversed list of finished
tokens. -/
def shlexAux : PyStr → ShState → PyStr → Bool → List PyStr → Except PyStr (List PyStr)
  | [], st, cur, quoted, acc =>
    match st with
    | .space => .ok acc.reverse
    | .word =>
      if cur = [] ∧ quoted = false then .ok acc.reverse
      else .ok (cur.reverse :: acc).reverse
    | .inSquote => .error "No closing quotation".toList
    | .inDquote => .error "No closing quotation".toList
    | .escWord => .error "No escaped character".toList
    | .escDquote => .error "No escaped character".toList
  | c :: t, st, cur, quoted, acc =>
    match st with
    | .space =>
      if shWs c then shlexAux t .space [] false acc
      else if c = bslash then shlexAux t .escWord [] false acc
      else if c = squote then shlexAux t .inSquote [] true acc
      else if c = dquote then shlexAux t .inDquote [] true acc
      else shlexAux t .word [c] false acc
    | .word =>
      if shWs c then
        if cur = [] ∧ quoted = false then shlexAux t .space [] false acc
        else shlexAux t .space [] false (cur.reverse :: acc)
      else if c = squote then shlexAux t .inSquote cur true acc
      else if c = dquote then shlexAux t .inDquote cur true acc
      else if c = bslash then shlexAux t .escWord cur quoted acc
      else shlexAux t .word (c :: cur) quoted acc
    | .inSquote =>
      if c = squote then shlexAux t .word cur quoted acc
      else shlexAux t .inSquote (c :: cur) quoted acc
    | .inDquote =>
      if c = dquote then shlexAux t .word cur quoted acc
      else if c = bslash then shlexAux t .escDquote cur quoted acc
      else shlexAux t .inDquote (c :: cur) quoted acc
    | .escWord => shlexAux t .word (c :: cur) quoted acc
    | .escDquote =>
      if c = bslash ∨ c = dquote then shlexAux t .inDquote (c :: cur) quoted acc
      else shlexAux t .inDquote (c :: bslash :: cur) quoted acc

/-- Python `shlex.split(s)` (posix, whitespace-split, no comments). -/
def shlex_split (s : PyStr) : Except PyStr (List PyStr) :=
  shlexAux s .space [] false []

/-! ## Source functions (shell_agent.py) -/

/-- `force_ls_color` (source lines 42-47): if the first
whitespace-separated word is `ls` and the substring `--color` does not
occur in the command, insert `--color=always` as the second word and
re-join with single spaces; otherwise return the command unchanged. -/
def force_ls_color (cmd : PyStr) : PyStr :=
  match pySplit cmd with
  | [] => cmd
  | p :: rest =>
    if p = "ls".toList ∧ pyContains cmd "--color".toList = false then
      joinSpace (p :: "--color=always".toList :: rest)
    else cmd

/-- The reachable body of `is_interactive` applied to the token list
produced by `shlex.split` (source lines 51-59; the duplicated blocks at
lines 60-69 sit after an unconditional `return` and are unreachable). -/
def is_interactive_tokens (tokens : List PyStr) : Bool :=
  match tokens with
  | [] => false
  | t0 :: rest =>
    if (t0 = "bash".toList ∨ t0 = "sh".toList) ∧ "-c".toList ∉ t0 :: rest then true
    else if t0 = "sed".toList then false
    else if "-it".toList ∈ t0 :: rest ∨ "-i".toList ∈ t0 :: rest ∨ "-t".toList ∈ t0 :: rest then
      true
    else false

/-- `is_interactive` (source lines 49-59): tokenize with `shlex.split`
(which may raise, modelled as `Except.error`) and classify. -/
def is_interactive (cmd : PyStr) : Except PyStr Bool :=
  match shlex_split cmd with
  | .error e => .error e
  | .ok tokens => .ok (is_interactive_tokens tokens)

/-- `normalize_command` (source lines 414-417): for commands starting with
`sed `, replace every occurrence of `-i ` by `-i`.  (Defined in the
source; see claim C4 for whether any handler calls it.) -/
def normalize_command (cmd : PyStr) : PyStr :=
  if pyStartsWith cmd "sed ".toList then pyReplace cmd "-i ".toList "-i".toList
  else cmd

/-! ## PTY sessions (class InteractiveSession, source lines 88-145)

The observable state of a session is its accumulated output buffer and the
state of its attached sink (`none` when no local attacher is bound, `some
w` where `w` is everything written to the sink so far).  The pid, master
fd, lock and task handle are I/O resources outside the embedding. -/

structure InteractiveSession where
  output_buffer : PyStr
  attach_writer : Option PyStr
  deriving DecidableEq

/-- One iteration of `InteractiveSession._read_loop` (source lines
98-117) after `decoded` bytes were read from the master fd: the first
`if self.attach_writer:` writes the bytes to the sink, the second
`if self.attach_writer:` guards the append to `output_buffer`. -/
def InteractiveSession.read_loop_step (s : InteractiveSession) (decoded : PyStr) :
    InteractiveSession :=
  let s1 :=
    match s.attach_writer with
    | some w => { s with attach_writer := some (w ++ decoded) }
    | none => s
  match s1.attach_writer with
  | some _ => { s1 with output_buffer := s1.output_buffer ++ decoded }
  | none => s1

/-- `InteractiveSession.get_output` (source lines 119-123): return the
buffer contents and reset the buffer to empty, under the session lock. -/
def InteractiveSession.get_output (s : InteractiveSession) :
    PyStr × InteractiveSession :=
  (s.output_buffer, { s with output_buffer := [] })

/-- Association-list lookup, modelling Python dict access keyed by the
UUID strings the agent uses. -/
def lookupA {α : Type} : List (PyStr × α) → PyStr → Option α
  | [], _ => none
  | (k, v) :: t, key => if k = key then some v else lookupA t key

/-- Association-list update of an existing key (Python dict assignment). -/
def updateA {α : Type} : List (PyStr × α) → PyStr → α → List (PyStr × α)
  | [], _, _ => []
  | (k, v) :: t, key, nv =>
    if k = key then (k, nv) :: updateA t key nv else (k, v) :: updateA t key nv

/-- `interactive_output` (source lines 464-470): 404 when the session id
is unknown, otherwise drain the session buffer and return the old
contents together with the updated registry. -/
def interactive_output (sessions : List (PyStr × InteractiveSession)) (session_id : PyStr) :
    Except Nat (PyStr × List (PyStr × InteractiveSession)) :=
  match lookupA sessions session_id with
  | none => .error 404
  | some s =>
    let r := s.get_output
    .ok (r.1, updateA sessions session_id r.2)

/-! ## Background processes (source lines 495-642)

A Child Process Record holds the two output-line buffers and the child
returncode (`none` while running).  The process handle itself is an I/O
resource; `await wait()` is modelled by a `waitCode` parameter giving the
exit code observed when the handler awaits the child. -/

structure ProcRecord where
  stdout : List PyStr
  stderr : List PyStr
  returncode : Option Int
  deriving DecidableEq

/-- The response shape of `GET /output/{id}` (source lines 620-630). -/
structure OutputResponse where
  stdout : PyStr
  stderr : PyStr
  running : Bool
  exit_code : Option Int
  deriving DecidableEq

/-- `get_output` (source lines 620-630): 404 when the id is unknown,
otherwise the concatenated buffers, `running` (returncode is None) and
the returncode. -/
def get_output (processes : List (PyStr × ProcRecord)) (id : PyStr) :
    Except Nat OutputResponse :=
  match lookupA processes id with
  | none => .error 404
  | some p => .ok ⟨pyJoin p.stdout, pyJoin p.stderr, p.returncode.isNone, p.returncode⟩

/-- `kill_process` (source lines 632-642): 404 when the id is unknown;
otherwise terminate the child, await its exit (after which its returncode
is an integer — the already-recorded one, or `waitCode` if it was still
running), and return the message and final exit code.  The record is not
removed from the table. -/
def kill_process (processes : List (PyStr × ProcRecord)) (id : PyStr) (waitCode : Int) :
    Except Nat ((PyStr × Int) × List (PyStr × ProcRecord)) :=
  match lookupA processes id with
  | none => .error 404
  | some p =>
    let code := p.returncode.getD waitCode
    .ok (("Process ".toList ++ id ++ " terminated.".toList, code),
      updateA processes id { p with returncode := some code })

/-! ## /run and /start handlers (source lines 497-618)

The handlers are modelled as functions of the request payload plus the
environment they interact with: the confirmation decision the awaited
ticket future resolves to, and (for `/run`) a `spawn` function giving,
for the command handed to `create_subprocess_shell`, either the drained
`(stdout, stderr, exit_code)` or the message of the exception raised
inside the handler try block.  The returned log lists the commands passed
to `create_subprocess_shell`, so that an empty log means no child was
spawned.  An uncaught Python exception is `Except.error`. -/

structure RunResponse where
  stdout : PyStr
  stderr : PyStr
  exit_code : Int
  deriving DecidableEq

/-- The interactive-refusal hint of `/run` (source lines 500-505). -/
def run_hint : PyStr :=
  ("Interactive commands require an interactive session. " ++
    "Use /interactive/start, then attach locally if desired.").toList

/-- `run_command` (source lines 497-561), the `POST /run` handler. -/
def run_command (require_confirmation decision : Bool) (command : PyStr)
    (spawn : PyStr → Except PyStr (PyStr × PyStr × Int)) :
    Except PyStr (RunResponse × List PyStr) :=
  let cmd := pyStrip command
  match is_interactive cmd with
  | .error e => .error e
  | .ok true => .ok (⟨[], run_hint, -1⟩, [])
  | .ok false =>
    let cmd2 := force_ls_color cmd
    if require_confirmation && !decision then
      .ok (⟨[], "Command execution declined by user.".toList, -1⟩, [])
    else
      match spawn cmd2 with
      | .ok (out, err, code) => .ok (⟨out, err, code⟩, [cmd2])
      | .error e => .ok (⟨[], e, -1⟩, [cmd2])

/-- The three response shapes of `POST /start`: the interactive refusal
dict, the decline dict `{"error": ...}`, and the success dict
`{"id": ...}`. -/
inductive StartResult where
  | refusal (r : RunResponse)
  | declined (error_msg : PyStr)
  | started (id : PyStr)
  deriving DecidableEq

/-- The interactive-refusal hint of `/start` (source lines 566-571). -/
def start_hint : PyStr :=
  "Interactive commands require an interactive session. Use /interactive/start.".toList

/-- `start_command` (source lines 563-618), the `POST /start` handler:
`proc_id` is the UUID generated for the request and the returned `Nat`
counts the reader tasks created by `asyncio.create_task`.  On success the
record is inserted; on decline the handler returns before spawning. -/
def start_command (require_confirmation decision : Bool) (command : PyStr)
    (proc_id : PyStr) (processes : List (PyStr × ProcRecord)) :
    Except PyStr (StartResult × List (PyStr × ProcRecord) × Nat) :=
  let cmd := pyStrip command
  match is_interactive cmd with
  | .error e => .error e
  | .ok true => .ok (.refusal ⟨[], start_hint, -1⟩, processes, 0)
  | .ok false =>
    let _cmd2 := force_ls_color cmd
    if require_confirmation && !decision then
      .ok (.declined "Execution declined".toList, processes, 0)
    else
      .ok (.started proc_id, processes ++ [(proc_id, ⟨[], [], none⟩)], 2)

/-! ## Confirmation broker (source lines 74-83, 275-343)

Tickets are identified by numbers; `writes` logs every `set_result` call
on a ticket future in order.  One `shell` event is one iteration of the
`interactive_shell` loop: drain the stashed tickets (one prompt answer
per ticket, `none` standing for EOF / interrupt / the forced-exit
sentinel), then — when the stash is empty — read one line at the main
prompt. -/

/-- How a drained ticket answer maps to the future value (source lines
306-320): `none` (EOF, interrupt, or `None`) declines; otherwise approve
exactly when the stripped, lowercased answer is `y` or empty. -/
def decide_answer : Option PyStr → Bool
  | none => false
  | some a =>
    let b := pyLower (pyStrip a)
    if b = "y".toList ∨ b = [] then true else false

/-- Outcome of one read at the main prompt: end-of-input (the handler
calls `os._exit(0)`), the forced-exit sentinel `None` (skip), or a line
of input. -/
inductive UserIn where
  | eof
  | sentinel
  | line (s : PyStr)

/-- The broker-relevant state: `pending` is the `pending_confirmations`
queue, `new_items` the hand-off stash, `writes` the log of `set_result`
calls, `enqueued` every ticket id ever put on the queue, and `exited`
whether `os._exit(0)` ran. -/
structure BrokerState where
  pending : List Nat
  new_items : List Nat
  writes : List (Nat × Bool)
  enqueued : List Nat
  exited : Bool
  deriving DecidableEq

/-- External events: an HTTP handler enqueues a ticket; the
`handle_pending_confirmations` task moves the queue head to the stash;
the shell loop runs one iteration. -/
inductive BrokerEv where
  | enqueue (id : Nat)
  | broker
  | shell (answers : List (Option PyStr)) (user : UserIn)

/-- Whether one read at the main prompt terminates the process (source
lines 323-343): EOF calls `os._exit(0)`; the sentinel and blank lines are
skipped; the line `exit` (stripped, lowercased) calls `os._exit(0)`;
every other line runs a local command, which does not touch the broker
state. -/
def wants_exit : UserIn → Bool
  | .eof => true
  | .sentinel => false
  | .line u =>
    if pyStrip u ≠ [] ∧ pyLower (pyStrip u) = "exit".toList then true else false

/-- One event of the confirmation pipeline.  In a `shell` event each
stashed ticket consumes one prompt answer and its future is written once
with `decide_answer`; the main prompt is read only when the stash was
fully drained (`remaining.isEmpty`), in which case the iteration may
terminate the process per `wants_exit`. -/
def broker_step (s : BrokerState) (e : BrokerEv) : BrokerState :=
  if s.exited then s
  else
    match e with
    | .enqueue id =>
      { s with pending := s.pending ++ [id], enqueued := s.enqueued ++ [id] }
    | .broker =>
      match s.pending with
      | [] => s
      | id :: rest => { s with pending := rest, new_items := s.new_items ++ [id] }
    | .shell answers user =>
      let drained := (s.new_items.zip answers).map fun p => (p.1, decide_answer p.2)
      let remaining := s.new_items.drop answers.length
      { s with
        new_items := remaining
        writes := s.writes ++ drained
        exited := remaining.isEmpty && wants_exit user }

/-- The initial broker state of a fresh agent process. -/
def initBroker : BrokerState := ⟨[], [], [], [], false⟩

/-- Run the confirmation pipeline over a list of events. -/
def runBroker (evs : List BrokerEv) : BrokerState := evs.foldl broker_step initBroker

/-! ## Specification-side definitions -/

/-- The §4.1 detector exactly as the specification states it, over the
token list: a command whose first token is `sed` is non-interactive
regardless; otherwise it is interactive iff the first token is `bash` or
`sh` with no `-c` token, or one of `-it`, `-i`, `-t` occurs as a distinct
token. -/
def spec_interactive (tokens : List PyStr) : Bool :=
  match tokens with
  | [] => false
  | t0 :: rest =>
    if t0 = "sed".toList then false
    else if ((t0 = "bash".toList ∨ t0 = "sh".toList) ∧ "-c".toList ∉ t0 :: rest) ∨
        ("-it".toList ∈ t0 :: rest ∨ "-i".toList ∈ t0 :: rest ∨ "-t".toList ∈ t0 :: rest) then
      true
    else false

/-! ## Helper lemmas -/

/-- Updating the entry found by a lookup is seen by the next lookup. -/
theorem lookupA_updateA {α : Type} (l : List (PyStr × α)) (key : PyStr) (v nv : α)
    (h : lookupA l key = some v) : lookupA (updateA l key nv) key = some nv := by
  induction l with
  | nil => simp [lookupA] at h
  | cons hd t ih =>
    obtain ⟨k, w⟩ := hd
    by_cases hk : k = key
    · simp [lookupA, updateA, hk]
    · simp only [lookupA, updateA, if_neg hk] at h ⊢
      exact ih h

/-- The reachable branch structure of `is_interactive` computes exactly
the §4.1 detector of the specification. -/
theorem is_interactive_tokens_eq_spec (ts : List PyStr) :
    is_interactive_tokens ts = spec_interactive ts := by
  cases ts with
  | nil => rfl
  | cons t0 rest =>
    have hx : "sed".toList ≠ "bash".toList := by decide
    have hy : "sed".toList ≠ "sh".toList := by decide
    simp only [is_interactive_tokens, spec_interactive]
    by_cases hsed : t0 = "sed".toList
    · subst hsed
      have h1 : ¬(("sed".toList = "bash".toList ∨ "sed".toList = "sh".toList) ∧
          "-c".toList ∉ "sed".toList :: rest) := by
        rintro ⟨h1, -⟩
        rcases h1 with h1 | h1
        · exact hx h1
        · exact hy h1
      simp only [if_neg h1, if_pos rfl]
      simp
    · simp only [if_neg hsed]
      by_cases hbash : (t0 = "bash".toList ∨ t0 = "sh".toList) ∧ "-c".toList ∉ t0 :: rest
      · simp only [if_pos hbash, if_pos (Or.inl hbash)]
      · simp only [if_neg hbash]
        by_cases hflag : "-it".toList ∈ t0 :: rest ∨ "-i".toList ∈ t0 :: rest ∨
            "-t".toList ∈ t0 :: rest
        · simp only [if_pos hflag, if_pos (Or.inr hflag)]
        · have h2 : ¬(((t0 = "bash".toList ∨ t0 = "sh".toList) ∧
              "-c".toList ∉ t0 :: rest) ∨
              ("-it".toList ∈ t0 :: rest ∨ "-i".toList ∈ t0 :: rest ∨
                "-t".toList ∈ t0 :: rest)) := by
            rintro (h | h)
            · exact hbash h
            · exact hflag h
          simp only [if_neg hflag, if_neg h2]

/-- The first components of a zip are the prefix of the left list up to
the length of the right list. -/
theorem zip_map_fst_take {α β : Type} :
    ∀ (l : List α) (m : List β), (l.zip m).map Prod.fst = l.take m.length := by
  intro l
  induction l with
  | nil => intro m; simp
  | cons a t ih =>
    intro m
    cases m with
    | nil => simp
    | cons b mt => simp [ih]

/-- The ticket-accounting identity is preserved by every broker event. -/
theorem broker_step_count (s : BrokerState) (e : BrokerEv) (id : Nat)
    (h : (s.writes.map Prod.fst).count id + s.pending.count id + s.new_items.count id =
      s.enqueued.count id) :
    ((broker_step s e).writes.map Prod.fst).count id + (broker_step s e).pending.count id +
        (broker_step s e).new_items.count id = (broker_step s e).enqueued.count id := by
  unfold broker_step
  by_cases hex : s.exited = true
  · simp only [if_pos hex]
    exact h
  · simp only [if_neg hex]
    cases e with
    | enqueue id0 =>
      by_cases hid : id0 = id
      · subst hid
        simp [List.count_append]
        omega
      · simp [List.count_append, List.count_singleton', hid, Ne.symm hid]
        omega
    | broker =>
      cases hp : s.pending with
      | nil => exact h
      | cons id0 rest =>
        rw [hp] at h
        by_cases hid : id0 = id
        · subst hid
          simp [List.count_append, List.count_cons] at h ⊢
          omega
        · simp [List.count_append, List.count_cons, hid, Ne.symm hid] at h ⊢
          omega
    | shell answers user =>
      dsimp only
      have hmap : (((s.new_items.zip answers).map fun p => (p.1, decide_answer p.2)).map
          Prod.fst) = s.new_items.take answers.length := by
        rw [List.map_map]
        exact zip_map_fst_take s.new_items answers
      have hsplit : (s.new_items.take answers.length).count id +
          (s.new_items.drop answers.length).count id = s.new_items.count id := by
        rw [← List.count_append, List.take_append_drop]
      simp only [List.map_append, List.count_append, hmap]
      omega

/-- A list is a Boolean prefix of itself followed by anything. -/
theorem isPrefixOf_append_self (s r : PyStr) : s.isPrefixOf (s ++ r) = true := by
  induction s with
  | nil => simp [List.isPrefixOf]
  | cons c t ih => simp [List.isPrefixOf, ih]

/-- Containment is stable under prepending a character. -/
theorem pyContains_cons (c : Char) (t sub : PyStr) (h : pyContains t sub = true) :
    pyContains (c :: t) sub = true := by
  unfold pyContains
  simp [h]

/-- A Boolean prefix is contained. -/
theorem pyContains_of_isPrefixOf (s sub : PyStr) (h : sub.isPrefixOf s = true) :
    pyContains s sub = true := by
  cases s with
  | nil => simpa [pyContains] using h
  | cons c t => simp [pyContains, h]

/-- Every word produced by `pySplitAux` (with a whitespace-free
accumulator) is non-empty and whitespace-free. -/
theorem pySplitAux_tokens : ∀ (s acc : PyStr), (∀ c ∈ acc, pySpace c = false) →
    ∀ tok ∈ pySplitAux s acc, tok ≠ [] ∧ ∀ c ∈ tok, pySpace c = false := by
  intro s
  induction s with
  | nil =>
    intro acc hacc tok htok
    unfold pySplitAux at htok
    by_cases hempty : acc = []
    · rw [if_pos hempty] at htok
      simp at htok
    · rw [if_neg hempty] at htok
      simp only [List.mem_singleton] at htok
      subst htok
      refine ⟨by simpa using hempty, ?_⟩
      intro c hc
      exact hacc c (List.mem_reverse.mp hc)
  | cons c t ih =>
    intro acc hacc tok htok
    unfold pySplitAux at htok
    by_cases hsp : pySpace c = true
    · rw [if_pos hsp] at htok
      by_cases hempty : acc = []
      · rw [if_pos hempty] at htok
        exact ih [] (by simp) tok htok
      · rw [if_neg hempty] at htok
        rcases List.mem_cons.mp htok with heq | hmem
        · subst heq
          refine ⟨by simpa using hempty, ?_⟩
          intro d hd
          exact hacc d (List.mem_reverse.mp hd)
        · exact ih [] (by simp) tok hmem
    · rw [if_neg hsp] at htok
      refine ih (c :: acc) ?_ tok htok
      intro d hd
      rcases List.mem_cons.mp hd with rfl | hd2
      · simpa using hsp
      · exact hacc d hd2

/-- Scanning a whitespace-free word moves it into the accumulator. -/
theorem pySplitAux_word : ∀ p : PyStr, (∀ c ∈ p, pySpace c = false) →
    ∀ s acc : PyStr, pySplitAux (p ++ s) acc = pySplitAux s (p.reverse ++ acc) := by
  intro p
  induction p with
  | nil => intro _ s acc; simp
  | cons c t ih =>
    intro h s acc
    have hc : pySpace c = false := h c (List.mem_cons_self c t)
    show pySplitAux (c :: (t ++ s)) acc = pySplitAux s ((c :: t).reverse ++ acc)
    have hstep : pySplitAux (c :: (t ++ s)) acc =
        if pySpace c = true then
          (if acc = [] then pySplitAux (t ++ s) []
            else acc.reverse :: pySplitAux (t ++ s) [])
        else pySplitAux (t ++ s) (c :: acc) := rfl
    rw [hstep, if_neg (by simp [hc]),
      ih (fun d hd => h d (List.mem_cons_of_mem c hd)) s (c :: acc)]
    congr 1
    simp

/-- Splitting a space-join of non-empty whitespace-free words recovers
the words. -/
theorem pySplit_joinSpace : ∀ parts : List PyStr,
    (∀ p ∈ parts, p ≠ [] ∧ ∀ c ∈ p, pySpace c = false) →
    pySplit (joinSpace parts) = parts := by
  intro parts
  induction parts with
  | nil => intro _; rfl
  | cons p ps ih =>
    intro h
    obtain ⟨hp, hpc⟩ := h p (List.mem_cons_self p ps)
    cases ps with
    | nil =>
      show pySplit (joinSpace [p]) = [p]
      have h1 : joinSpace [p] = p := rfl
      rw [h1]
      unfold pySplit
      have h2 := pySplitAux_word p hpc [] []
      rw [List.append_nil, List.append_nil] at h2
      rw [h2]
      unfold pySplitAux
      rw [if_neg (by simpa using hp)]
      simp
    | cons q qs =>
      show pySplit (p ++ ' ' :: joinSpace (q :: qs)) = p :: q :: qs
      unfold pySplit
      rw [pySplitAux_word p hpc]
      unfold pySplitAux
      rw [if_pos (by decide), if_neg (by simpa using hp)]
      have ihh := ih fun x hx => h x (List.mem_cons_of_mem p hx)
      unfold pySplit at ihh
      rw [ihh]
      simp

/-- When the `ls` rule fires, the result is the space-join of the first
word, `--color=always`, and the remaining words. -/
theorem force_ls_color_fires (cmd p : PyStr) (rest : List PyStr)
    (hsplit : pySplit cmd = p :: rest) (hp : p = "ls".toList)
    (hc : pyContains cmd "--color".toList = false) :
    force_ls_color cmd =
      joinSpace ("ls".toList :: "--color=always".toList :: rest) := by
  subst hp
  unfold force_ls_color
  rw [hsplit]
  exact if_pos ⟨rfl, hc⟩

/-- The result of a fired `ls` rule contains the substring `--color`. -/
theorem contains_color_fired (rest : List PyStr) :
    pyContains (joinSpace ("ls".toList :: "--color=always".toList :: rest))
      "--color".toList = true := by
  have h1 : joinSpace ("ls".toList :: "--color=always".toList :: rest) =
      'l' :: 's' :: ' ' :: joinSpace ("--color=always".toList :: rest) := rfl
  rw [h1]
  apply pyContains_cons
  apply pyContains_cons
  apply pyContains_cons
  have h2 : ∃ r, joinSpace ("--color=always".toList :: rest) = "--color".toList ++ r := by
    cases rest with
    | nil => exact ⟨"=always".toList, rfl⟩
    | cons q qs =>
      refine ⟨"=always".toList ++ ' ' :: joinSpace (q :: qs), ?_⟩
      show "--color=always".toList ++ ' ' :: joinSpace (q :: qs) = _
      rw [show ("--color=always".toList : PyStr) = "--color".toList ++ "=always".toList
        from rfl]
      simp
  obtain ⟨r, hr⟩ := h2
  rw [hr]
  exact pyContains_of_isPrefixOf _ _ (isPrefixOf_append_self _ _)

/-! ## Claim theorems -/

/-- Claim C3: on every command whose `shlex` tokenization succeeds, the
detector `is_interactive` (used by `/run`, `/start` and the local shell)
classifies exactly as the specification §4.1 states: first token `sed`
is non-interactive regardless; otherwise interactive iff the first token
is `bash` or `sh` with no `-c` token, or one of `-it`, `-i`, `-t` occurs
as a distinct token. -/
theorem c3_detector_matches_spec (cmd : PyStr) (tokens : List PyStr)
    (h : shlex_split cmd = .ok tokens) :
    is_interactive cmd = .ok (spec_interactive tokens) := by
  unfold is_interactive
  rw [h]
  exact congrArg Except.ok (is_interactive_tokens_eq_spec tokens)

/-- Witness for C3 on `docker run -it ubuntu` (interactive through the
`-it` flag token). -/
theorem c3_detector_matches_spec_witness :
    is_interactive "docker run -it ubuntu".toList =
      .ok (spec_interactive
        ["docker".toList, "run".toList, "-it".toList, "ubuntu".toList]) :=
  c3_detector_matches_spec "docker run -it ubuntu".toList
    ["docker".toList, "run".toList, "-it".toList, "ubuntu".toList] rfl

/-- Claim C2 (amended): once the stripped command tokenizes, `/run`
always returns a JSON response — and when the spawn/streaming section of
the handler raises, the response is `{stdout: "", stderr: <message>,
exit_code: -1}`.  (The unamended claim fails: a tokenization error
propagates, see the counterexample.) -/
theorem c2_spawn_errors_caught (rc dec : Bool) (command : PyStr)
    (spawn : PyStr → Except PyStr (PyStr × PyStr × Int)) (b : Bool)
    (h : is_interactive (pyStrip command) = .ok b) :
    (∃ r, run_command rc dec command spawn = .ok r) ∧
      (b = false → rc = false ∨ dec = true → ∀ e,
        spawn (force_ls_color (pyStrip command)) = .error e →
        run_command rc dec command spawn =
          .ok (⟨[], e, -1⟩, [force_ls_color (pyStrip command)])) := by
  constructor
  · unfold run_command
    dsimp only
    rw [h]
    cases b
    · cases hrc : (rc && !dec)
      · cases hs : spawn (force_ls_color (pyStrip command)) with
        | ok v =>
          obtain ⟨out, err, code⟩ := v
          exact ⟨_, rfl⟩
        | error e => exact ⟨_, rfl⟩
      · exact ⟨_, rfl⟩
    · exact ⟨_, rfl⟩
  · intro hb hrd e hs
    subst hb
    have hrc : (rc && !dec) = false := by
      rcases hrd with h1 | h1 <;> simp [h1]
    unfold run_command
    dsimp only
    rw [h]
    simp [hrc, hs]

/-- Witness for C2 at a request whose spawn raises `boom` (confirmation
approved). -/
theorem c2_spawn_errors_caught_witness :
    run_command true true "echo hi".toList (fun _ => .error "boom".toList) =
      .ok (⟨[], "boom".toList, -1⟩, [force_ls_color (pyStrip "echo hi".toList)]) :=
  (c2_spawn_errors_caught true true "echo hi".toList (fun _ => .error "boom".toList)
    false (by rfl)).2 rfl (Or.inr rfl) "boom".toList rfl

/-- Claim C4 (amended): before delegation `/run` normalizes only by
stripping surrounding whitespace and applying the `ls` color rule — every
command handed to `create_subprocess_shell` equals
`force_ls_color (pyStrip command)`.  The `sed -i ` artifact normalization
(`normalize_command`) exists in the source but no handler invokes it
(see the counterexample). -/
theorem c4_executed_is_strip_lscolor (rc dec : Bool) (command : PyStr)
    (spawn : PyStr → Except PyStr (PyStr × PyStr × Int)) (resp : RunResponse)
    (log : List PyStr) (h : run_command rc dec command spawn = .ok (resp, log)) :
    log = [] ∨ log = [force_ls_color (pyStrip command)] := by
  unfold run_command at h
  dsimp only at h
  cases hi : is_interactive (pyStrip command) with
  | error e => rw [hi] at h; cases h
  | ok b =>
    rw [hi] at h
    cases b
    · cases hrc : (rc && !dec)
      · cases hs : spawn (force_ls_color (pyStrip command)) with
        | ok v =>
          obtain ⟨out, err, code⟩ := v
          simp [hrc, hs] at h
          exact Or.inr h.2.symm
        | error e =>
          simp [hrc, hs] at h
          exact Or.inr h.2.symm
      · simp [hrc] at h
        exact Or.inl h.2
    · simp at h
      exact Or.inl h.2

/-- Witness for C4 at `echo hi` with confirmation disabled: the executed
command list produced by the handler satisfies the amended claim. -/
theorem c4_executed_is_strip_lscolor_witness :
    ["echo hi".toList] = ([] : List PyStr) ∨
      ["echo hi".toList] = [force_ls_color (pyStrip "echo hi".toList)] :=
  c4_executed_is_strip_lscolor false false "echo hi".toList (fun _ => .ok ([], [], 0))
    ⟨[], [], 0⟩ ["echo hi".toList] rfl

/-- Claim C1 (code bug): the reader loop of a PTY session is claimed to
append incoming bytes to the in-memory buffer also when no local attacher
is bound; the source guards the append with a second
`if self.attach_writer:`, so on a detached session the bytes are dropped
(first conjunct), while on an attached session they reach both the sink
and the buffer (second conjunct). -/
theorem c1_detached_bytes_dropped :
    InteractiveSession.read_loop_step ⟨[], none⟩ "hi\n".toList = ⟨[], none⟩ ∧
    InteractiveSession.read_loop_step ⟨[], some []⟩ "hi\n".toList =
      ⟨"hi\n".toList, some "hi\n".toList⟩ :=
  ⟨rfl, rfl⟩

/-- Claim C2, counterexample: `POST /run` with the one-character command
consisting of a single quote makes `shlex.split` (called by
`is_interactive` outside the handler try block) raise
`ValueError("No closing quotation")`, which propagates to the caller
instead of being returned as an `exit_code = -1` response. -/
theorem c2_shlex_error_propagates :
    run_command true true [squote] (fun _ => .ok ([], [], 0)) =
      .error "No closing quotation".toList := rfl

/-- Claim C4, counterexample: for the request command `sed -i s/a/b/ f`
the command handed to `create_subprocess_shell` by `/run` is the stripped
command itself; the `sed -i ` artifact normalization (`normalize_command`)
would have produced a different string, so the executed command is not
the normalized one. -/
theorem c4_sed_normalization_not_applied :
    run_command false false "sed -i s/a/b/ f".toList (fun _ => .ok ([], [], 0)) =
        .ok (⟨[], [], 0⟩, ["sed -i s/a/b/ f".toList]) ∧
      normalize_command "sed -i s/a/b/ f".toList = "sed -is/a/b/ f".toList ∧
      "sed -i s/a/b/ f".toList ≠ "sed -is/a/b/ f".toList :=
  ⟨rfl, rfl, by decide⟩

/-- Claim C5: with confirmation enabled, a `/run` request whose ticket
future resolves to the decline decision (the answer is `none` — EOF or
interrupt — or strips and lowercases to something other than `y` or the
empty string) receives exactly the declined response, and no command is
passed to `create_subprocess_shell`. -/
theorem c5_declined_run (ans : Option PyStr) (command : PyStr)
    (spawn : PyStr → Except PyStr (PyStr × PyStr × Int))
    (hd : decide_answer ans = false)
    (hi : is_interactive (pyStrip command) = .ok false) :
    run_command true (decide_answer ans) command spawn =
      .ok (⟨[], "Command execution declined by user.".toList, -1⟩, []) := by
  simp [run_command, hi, hd]

/-- Witness for C5 at the concrete declined request of the spec scenario:
the user answers `n` to `rm -rf /tmp/x`. -/
theorem c5_declined_run_witness :
    run_command true (decide_answer (some "n".toList)) "rm -rf /tmp/x".toList
        (fun _ => .ok ([], [], 0)) =
      .ok (⟨[], "Command execution declined by user.".toList, -1⟩, []) :=
  c5_declined_run (some "n".toList) "rm -rf /tmp/x".toList _ (by rfl) (by rfl)

/-- Claim C6, counterexample: a ticket is enqueued while the user is at
the main prompt, and the user types `exit` before the broker task moves
the ticket to the stash.  The process exits (`os._exit(0)`) with the
ticket still pending and its completion slot never written, refuting
"no enqueued ticket is left forever unresolved" (there is no
decline-on-shutdown in the source). -/
theorem c6_ticket_abandoned_on_exit :
    (runBroker [.enqueue 0, .shell [] (.line "exit".toList)]).exited = true ∧
      (runBroker [.enqueue 0, .shell [] (.line "exit".toList)]).writes = [] ∧
      (runBroker [.enqueue 0, .shell [] (.line "exit".toList)]).enqueued = [0] ∧
      (runBroker [.enqueue 0, .shell [] (.line "exit".toList)]).pending = [0] :=
  ⟨rfl, rfl, rfl, rfl⟩

/-- Claim C6 (amended): over every event sequence, each enqueued ticket
is in exactly one place — its completion slot written (once per enqueue,
so distinct ticket ids are written at most once), still on the pending
queue, or still in the hand-off stash.  In particular no slot is written
twice; but a ticket still pending or stashed when the user exits is never
resolved, as there is no decline-on-shutdown (see the counterexample). -/
theorem c6_ticket_accounting (evs : List BrokerEv) (id : Nat) :
    ((runBroker evs).writes.map Prod.fst).count id + (runBroker evs).pending.count id +
        (runBroker evs).new_items.count id =
      (runBroker evs).enqueued.count id := by
  suffices hgen : ∀ s : BrokerState,
      (s.writes.map Prod.fst).count id + s.pending.count id + s.new_items.count id =
        s.enqueued.count id →
      (((evs.foldl broker_step s).writes.map Prod.fst).count id +
          (evs.foldl broker_step s).pending.count id +
          (evs.foldl broker_step s).new_items.count id =
        (evs.foldl broker_step s).enqueued.count id) by
    exact hgen initBroker (by simp [initBroker])
  induction evs with
  | nil => intro s h; exact h
  | cons e t ih =>
    intro s h
    exact ih (broker_step s e) (broker_step_count s e id h)

/-- Claim C7: the `ls` color normalization is idempotent; it is the
identity on every command containing the substring `--color`; and when it
fires (first whitespace-separated word is `ls`, `--color` absent),
`--color=always` is the second whitespace-separated word of the
result. -/
theorem c7_ls_color_normalization :
    (∀ cmd : PyStr, force_ls_color (force_ls_color cmd) = force_ls_color cmd) ∧
      (∀ cmd : PyStr, pyContains cmd "--color".toList = true →
        force_ls_color cmd = cmd) ∧
      (∀ (cmd p : PyStr) (rest : List PyStr),
        pySplit cmd = p :: rest → p = "ls".toList →
        pyContains cmd "--color".toList = false →
        pySplit (force_ls_color cmd) =
          "ls".toList :: "--color=always".toList :: rest) := by
  have hid : ∀ cmd : PyStr, pyContains cmd "--color".toList = true →
      force_ls_color cmd = cmd := by
    intro cmd hcol
    unfold force_ls_color
    cases hsplit : pySplit cmd with
    | nil => rfl
    | cons p rest =>
      refine if_neg ?_
      rintro ⟨-, hc⟩
      rw [hcol] at hc
      cases hc
  have hfire : ∀ (cmd p : PyStr) (rest : List PyStr),
      pySplit cmd = p :: rest → p = "ls".toList →
      pyContains cmd "--color".toList = false →
      pySplit (force_ls_color cmd) =
        "ls".toList :: "--color=always".toList :: rest := by
    intro cmd p rest hsplit hp hc
    rw [force_ls_color_fires cmd p rest hsplit hp hc]
    apply pySplit_joinSpace
    intro x hx
    rcases List.mem_cons.mp hx with rfl | hx1
    · exact ⟨by decide, by decide⟩
    rcases List.mem_cons.mp hx1 with rfl | hx2
    · exact ⟨by decide, by decide⟩
    · refine pySplitAux_tokens cmd [] (by simp) x ?_
      have hm : x ∈ pySplit cmd := by
        rw [hsplit]
        exact List.mem_cons_of_mem p hx2
      exact hm
  refine ⟨?_, hid, hfire⟩
  intro cmd
  cases hsplit : pySplit cmd with
  | nil =>
    have h1 : force_ls_color cmd = cmd := by
      unfold force_ls_color
      rw [hsplit]
    rw [h1, h1]
  | cons p rest =>
    by_cases hcond : p = "ls".toList ∧ pyContains cmd "--color".toList = false
    · obtain ⟨hp, hc⟩ := hcond
      rw [force_ls_color_fires cmd p rest hsplit hp hc]
      exact hid _ (contains_color_fired rest)
    · have h1 : force_ls_color cmd = cmd := by
        unfold force_ls_color
        rw [hsplit]
        exact if_neg hcond
      rw [h1, h1]

/-- Witness for C7: idempotence at `ls -la`, identity at
`ls --color=auto`, and the fired token shape at `ls -la`. -/
theorem c7_ls_color_normalization_witness :
    force_ls_color (force_ls_color "ls -la".toList) = force_ls_color "ls -la".toList ∧
      force_ls_color "ls --color=auto".toList = "ls --color=auto".toList ∧
      pySplit (force_ls_color "ls -la".toList) =
        "ls".toList :: "--color=always".toList :: ["-la".toList] :=
  ⟨c7_ls_color_normalization.1 "ls -la".toList,
    c7_ls_color_normalization.2.1 "ls --color=auto".toList (by rfl),
    c7_ls_color_normalization.2.2 "ls -la".toList "ls".toList ["-la".toList]
      (by rfl) rfl (by rfl)⟩

/-- Claim C8: `GET /interactive/output/{session_id}` drains: a successful
call swaps the session buffer for an empty one, so an immediately
repeated call (no intervening reader appends) returns the empty
string. -/
theorem c8_interactive_output_drains (sessions : List (PyStr × InteractiveSession))
    (sid : PyStr) (out1 : PyStr) (sessions1 : List (PyStr × InteractiveSession))
    (h : interactive_output sessions sid = .ok (out1, sessions1)) :
    ∃ sessions2, interactive_output sessions1 sid = .ok ([], sessions2) := by
  unfold interactive_output at h ⊢
  cases hl : lookupA sessions sid with
  | none => rw [hl] at h; exact absurd h (by simp)
  | some s =>
    rw [hl] at h
    simp only [InteractiveSession.get_output, Except.ok.injEq, Prod.mk.injEq] at h
    obtain ⟨-, hsess⟩ := h
    subst hsess
    rw [lookupA_updateA sessions sid s _ hl]
    exact ⟨_, rfl⟩

/-- Witness for C8 on a concrete one-session registry holding `hi`. -/
theorem c8_interactive_output_drains_witness :
    ∃ sessions2,
      interactive_output [("s1".toList, (⟨[], none⟩ : InteractiveSession))] "s1".toList =
        .ok ([], sessions2) :=
  c8_interactive_output_drains [("s1".toList, ⟨"hi".toList, none⟩)] "s1".toList
    "hi".toList [("s1".toList, ⟨[], none⟩)] rfl

/-- Claim C9: after a successful `POST /kill/{id}` the Child Process
Record is still in the table: `GET /output/{id}` succeeds (no 404) and
returns the final buffers, `running = false`, and the integer exit
code. -/
theorem c9_record_persists_after_kill (procs : List (PyStr × ProcRecord)) (id : PyStr)
    (waitCode : Int) (msg : PyStr) (code : Int) (procs2 : List (PyStr × ProcRecord))
    (p : ProcRecord) (hl : lookupA procs id = some p)
    (hk : kill_process procs id waitCode = .ok ((msg, code), procs2)) :
    get_output procs2 id = .ok ⟨pyJoin p.stdout, pyJoin p.stderr, false, some code⟩ := by
  unfold kill_process at hk
  rw [hl] at hk
  simp only [Except.ok.injEq, Prod.mk.injEq] at hk
  obtain ⟨⟨-, hcode⟩, hprocs⟩ := hk
  subst hprocs
  unfold get_output
  rw [lookupA_updateA procs id p _ hl]
  simp [hcode]

/-- Witness for C9: a one-process table whose child is still running is
killed with observed exit code -15; the record stays queryable. -/
theorem c9_record_persists_after_kill_witness :
    get_output [("p1".toList, (⟨["a\n".toList], [], some (-15 : Int)⟩ : ProcRecord))]
        "p1".toList =
      .ok ⟨pyJoin ["a\n".toList], pyJoin [], false, some (-15)⟩ :=
  c9_record_persists_after_kill [("p1".toList, ⟨["a\n".toList], [], none⟩)] "p1".toList
    (-15) _ (-15) _ ⟨["a\n".toList], [], none⟩ rfl rfl

/-- Claim C10: a `/start` request whose confirmation is declined returns
the `{"error": "Execution declined"}` body (a response carrying no id),
leaves the processes table exactly as it was — in particular the UUID
generated for the request is not inserted — and starts no reader
tasks. -/
theorem c10_declined_start_frame (command proc_id : PyStr)
    (procs : List (PyStr × ProcRecord))
    (hi : is_interactive (pyStrip command) = .ok false) :
    start_command true false command proc_id procs =
      .ok (.declined "Execution declined".toList, procs, 0) := by
  simp [start_command, hi]

/-- Witness for C10 at a concrete declined background command. -/
theorem c10_declined_start_frame_witness :
    start_command true false "sleep 100".toList "u1".toList [] =
      .ok (.declined "Execution declined".toList, [], 0) :=
  c10_declined_start_frame "sleep 100".toList "u1".toList [] (by rfl)

end ShellAgent
